import Mathlib

/-!
Shallow embedding of `src/workspace.rs` of `cargo-equip`: the package-graph
data model (`cargo_metadata` snapshot), the extern-crate-name resolver, the
bin-target selector, the per-package metadata parser, and the sandboxed
`cargo check` verification pipeline, together with theorems settling the
frozen claims about them.
-/

namespace CargoEquip

/-- `cargo_metadata::DependencyKind` (only the three kinds used). -/
inductive DependencyKind where
  | normal
  | dev
  | build
deriving DecidableEq

/-- `cargo_metadata::DepKindInfo`: the `kind` field (the `target` field is
never inspected by `workspace.rs`). -/
structure DepKindInfo where
  kind : DependencyKind
deriving DecidableEq

/-- `cargo_metadata::NodeDep`: one resolved edge, carrying the effective
`name` it was resolved under, the target package id `pkg`, and `dep_kinds`. -/
structure NodeDep where
  name : String
  pkg : String
  dep_kinds : List DepKindInfo
deriving DecidableEq

/-- `cargo_metadata::Node`: per-package record of resolved edges. -/
structure Node where
  id : String
  deps : List NodeDep
  dependencies : List String
deriving DecidableEq

/-- `cargo_metadata::Resolve`. -/
structure Resolve where
  nodes : List Node
deriving DecidableEq

/-- `cargo_metadata::Target`: the fields `workspace.rs` reads. -/
structure Target where
  name : String
  kind : List String
  src_path : String
deriving DecidableEq

/-- `cargo_metadata::Dependency`: only the `rename` field is read. -/
structure Dependency where
  rename : Option String
deriving DecidableEq

/-- A `serde_json::Value`, as stored in `Package::metadata`. -/
inductive Json where
  | null
  | bool (b : Bool)
  | num (n : Int)
  | str (s : String)
  | arr (elems : List Json)
  | obj (fields : List (String × Json))

/-- `cargo_metadata::Package`: the fields `workspace.rs` reads. -/
structure Package where
  id : String
  name : String
  manifest_path : String
  edition : String
  targets : List Target
  dependencies : List Dependency
  metadata : Json

/-- `cargo_metadata::Metadata`: the fields `workspace.rs` reads. -/
structure Metadata where
  packages : List Package
  workspace_members : List String
  resolve : Option Resolve
  workspace_root : String
  target_directory : String

/-- The `Index` impl `self[package_id]` of `cargo_metadata::Metadata`
(panics when the id is absent; here the caller distinguishes `none`). -/
def getPackage (m : Metadata) (id : String) : Option Package :=
  m.packages.find? (fun p => p.id == id)

/-- `self.resolve.as_ref().into_iter().flat_map(|Resolve { nodes, .. }| nodes)`. -/
def nodesOf (m : Metadata) : List Node :=
  match m.resolve with
  | none => []
  | some r => r.nodes

/-- `str::replace('-', "_")` on the target name. -/
def rustReplaceHyphen (s : String) : String :=
  String.mk (s.data.map fun c => if c == '-' then '_' else c)

/-- Errors `dep_lib_by_extern_crate_name` reports through `anyhow`. -/
inductive DepLibError where
  | notFoundInGraph (id : String)
  | noLibTarget (ecn pkgName : String)
  | noSuchExternCrate (ecn : String)
deriving DecidableEq

/-- Outcome of `dep_lib_by_extern_crate_name`; `panic` marks the `expect`
call and the panicking `Index` lookups. -/
inductive DepLibOutcome where
  | ok (t : Target) (p : Package)
  | err (e : DepLibError)
  | panic

/-- The `else` branch of `dep_lib_by_extern_crate_name`:
`node.dependencies.iter().map(|dep_id| &self[dep_id]).flat_map(|p| p.targets...)`
`.find(|(t, _)| t.name == extern_crate_name && *t.kind == ["lib"])`,
with the missing-id panic of the `Index` lookup made explicit. -/
def findImplicitDepLib (m : Metadata) (ecn : String) : List String → DepLibOutcome
  | [] => .err (.noSuchExternCrate ecn)
  | depId :: rest =>
    match getPackage m depId with
    | none => .panic
    | some p =>
      match p.targets.find? (fun t => t.name == ecn && t.kind == ["lib"]) with
      | some t => .ok t p
      | none => findImplicitDepLib m ecn rest

/-- `MetadataExt::dep_lib_by_extern_crate_name`. -/
def dep_lib_by_extern_crate_name (m : Metadata) (package_id : String)
    (ecn : String) : DepLibOutcome :=
  match getPackage m package_id with
  | none => .panic
  | some package =>
    match (nodesOf m).find? (fun n => n.id == package_id) with
    | none => .err (.notFoundInGraph package_id)
    | some node =>
      if (package.dependencies.filterMap Dependency.rename).any
          (fun rn => rn == ecn) then
        match node.deps.find? (fun nd => nd.name == ecn) with
        | none => .panic
        | some nd =>
          match getPackage m nd.pkg with
          | none => .panic
          | some package2 =>
            match package2.targets.find? (fun t => t.kind == ["lib"]) with
            | none => .err (.noLibTarget ecn package2.name)
            | some lib => .ok lib package2
      else
        findImplicitDepLib m ecn node.dependencies

/-- Outcome of `extern_crate_name`: `absent` is Rust's `None`, `panic`
marks the panicking `Index` lookups of `self[from]` / `self[to]`. -/
inductive ExternCrateNameResult where
  | panic
  | absent
  | found (s : String)
deriving DecidableEq

/-- The eligibility test on an edge's `dep_kinds`:
`dep_kinds.is_empty() || matches!(&**dep_kinds, [DepKindInfo { kind: Normal, .. }])`. -/
def eligibleDepKinds : List DepKindInfo → Bool
  | [] => true
  | [⟨DependencyKind.normal⟩] => true
  | _ => false

/-- `MetadataExt::extern_crate_name`. -/
def extern_crate_name (m : Metadata) (fromId toId : String) :
    ExternCrateNameResult :=
  match getPackage m fromId, getPackage m toId with
  | some fromP, some toP =>
    let explicitNames := fromP.dependencies.filterMap Dependency.rename
    match m.resolve with
    | none => .absent
    | some resolve =>
      match resolve.nodes.find? (fun n => n.id == fromP.id) with
      | none => .absent
      | some node =>
        match node.deps.find?
            (fun nd => nd.pkg == toP.id && eligibleDepKinds nd.dep_kinds) with
        | none => .absent
        | some nd =>
          if explicitNames.contains nd.name then
            .found nd.name
          else
            match toP.targets.find? (fun t => t.kind == ["lib"]) with
            | some t => .found (rustReplaceHyphen t.name)
            | none => .absent
  | _, _ => .panic

/-- `bin_targets`: every target of kind `["bin"]` owned by a
workspace-member package, in package order. -/
def bin_targets (m : Metadata) : List (Target × Package) :=
  ((m.packages.filter (fun p => m.workspace_members.contains p.id)).map
      (fun p => p.targets.map (fun t => (t, p)))).flatten.filter
    (fun tp => tp.1.kind == ["bin"])

/-- Errors of the zero/one/many bin-target selection. -/
inductive BinTargetError where
  | notFound
  | ambiguous (names : List String)
deriving DecidableEq

/-- `MetadataExt::exactly_one_bin_target`. -/
def exactly_one_bin_target (m : Metadata) :
    Except BinTargetError (Target × Package) :=
  match bin_targets m with
  | [] => .error .notFound
  | [bin] => .ok bin
  | bins => .error (.ambiguous (bins.map (fun tp => tp.1.name)))

/-- The character class `[a-zA-Z0-9_]` of the `PseudoModulePath` regex. -/
def isIdentChar (c : Char) : Bool :=
  c.isAlpha || c.isDigit || c == '_'

/-- `PseudoModulePath { extern_crate_name, module_name }`. -/
structure PseudoModulePath where
  extern_crate_name : String
  module_name : String
deriving DecidableEq

/-- Take a maximal nonempty run of `[a-zA-Z0-9_]` characters, returning it
with the remainder; fails when the run is empty. -/
def takeIdent (cs : List Char) : Option (List Char × List Char) :=
  if (cs.takeWhile isIdentChar).isEmpty then none
  else some (cs.takeWhile isIdentChar, cs.dropWhile isIdentChar)

/-- Match the literal `::` at the head of the character list and return
the remainder. -/
def expectColons : List Char → Option (List Char)
  | c1 :: c2 :: rest =>
    if c1 = ':' then if c2 = ':' then some rest else none else none
  | _ => none

/-- The anchored match `\A::([a-zA-Z0-9_]+)::([a-zA-Z0-9_]+)\z` on a
character list: both capture groups, or failure. -/
def matchPseudoModulePath (cs : List Char) : Option (List Char × List Char) :=
  match expectColons cs with
  | none => none
  | some rest =>
    match takeIdent rest with
    | none => none
    | some (g1, rest1) =>
      match expectColons rest1 with
      | none => none
      | some rest2 =>
        match takeIdent rest2 with
        | none => none
        | some (g2, rest3) => if rest3.isEmpty then some (g1, g2) else none

/-- `<PseudoModulePath as FromStr>::from_str`. -/
def PseudoModulePath.fromStr (s : String) : Except String PseudoModulePath :=
  match matchPseudoModulePath s.data with
  | some (g1, g2) => .ok ⟨String.mk g1, String.mk g2⟩
  | none => .error "expected `\\A::([a-zA-Z0-9_]+)::([a-zA-Z0-9_]+)\\z`"

/-- `<PseudoModulePath as fmt::Display>::fmt`: `write!(f, "\"::{}::{}\"", ..)`. -/
def PseudoModulePath.display (p : PseudoModulePath) : String :=
  "\"::" ++ p.extern_crate_name ++ "::" ++ p.module_name ++ "\""

/-- `PackageMetadataCargoEquip`; the `HashMap<PseudoModulePath, BTreeSet<_>>`
is modelled as an association list (nothing here depends on its order). -/
structure PackageMetadataCargoEquip where
  module_dependencies : List (PseudoModulePath × List PseudoModulePath)
deriving DecidableEq

/-- JSON object field lookup. -/
def getField (fields : List (String × Json)) (k : String) : Option Json :=
  (fields.find? (fun f => f.1 == k)).map (fun f => f.2)

/-- Deserializing a `PseudoModulePath` from a JSON value: a string parsed
with `from_str` (`D::Error::custom` on failure). -/
def deserializePseudoModulePath : Json → Except String PseudoModulePath
  | .str s => PseudoModulePath.fromStr s
  | _ => .error "invalid type: expected a string"

/-- Deserializing a `BTreeSet<PseudoModulePath>`: a JSON array of strings. -/
def deserializePMPList : Json → Except String (List PseudoModulePath)
  | .arr xs => xs.mapM deserializePseudoModulePath
  | _ => .error "invalid type: expected a sequence"

/-- Deserializing `HashMap<PseudoModulePath, BTreeSet<PseudoModulePath>>`:
a JSON object whose keys parse as pseudo module paths. -/
def deserializeModuleDeps :
    Json → Except String (List (PseudoModulePath × List PseudoModulePath))
  | .obj fields =>
    fields.mapM (fun kv => do
      let key ← deserializePseudoModulePath (.str kv.1)
      let val ← deserializePMPList kv.2
      pure (key, val))
  | _ => .error "invalid type: expected a map"

/-- Derived `Deserialize` of `PackageMetadataCargoEquip` (kebab-case): the
`module-dependencies` field is required. -/
def deserializePackageMetadataCargoEquip :
    Json → Except String PackageMetadataCargoEquip
  | .obj fields =>
    match getField fields "module-dependencies" with
    | some v => (deserializeModuleDeps v).map PackageMetadataCargoEquip.mk
    | none => .error "missing field module-dependencies"
  | _ => .error "invalid type: expected a map"

/-- Derived `Deserialize` of the local `PackageMetadata` wrapper struct:
`cargo_equip: Option<PackageMetadataCargoEquip>` under key `cargo-equip`
(missing or null field gives `None`). -/
def deserializePackageMetadata :
    Json → Except String (Option PackageMetadataCargoEquip)
  | .obj fields =>
    match getField fields "cargo-equip" with
    | none => .ok none
    | some .null => .ok none
    | some v => (deserializePackageMetadataCargoEquip v).map some
  | _ => .error "invalid type: expected a map"

/-- The `with_context` message wrapped around a `serde_json` failure. -/
def parseMetadataErrorMsg (manifestPath : String) : String :=
  "could not parse `package.metadata.cargo-equip` at `" ++ manifestPath ++ "`"

/-- The `shell.warn` message for a missing metadata block. -/
def missingMetadataWarning (manifestPath : String) : String :=
  "missing `package.metadata.cargo-equip` in `" ++ manifestPath ++
    "`. including all of the modules"

/-- `PackageExt::parse_metadata`; the `Shell` collaborator is modelled as
the list of warnings emitted. -/
def parse_metadata (p : Package) :
    Except String (PackageMetadataCargoEquip × List String) :=
  let cargoEquip : Except String (Option PackageMetadataCargoEquip) :=
    match p.metadata with
    | .null => .ok none
    | v =>
      match deserializePackageMetadata v with
      | .ok c => .ok c
      | .error _ => .error (parseMetadataErrorMsg p.manifest_path)
  match cargoEquip with
  | .error e => .error e
  | .ok (some c) => .ok (c, [])
  | .ok none =>
    .ok (PackageMetadataCargoEquip.mk [], [missingMetadataWarning p.manifest_path])

/-- One character of the random scratch-name suffix:
`gen_range(0, 26 + 10)` mapped through `b'a' + n` / `b'0' + n - 26`. -/
def sufChar (n : Nat) : Char :=
  if n ≤ 25 then Char.ofNat (97 + n) else Char.ofNat (48 + (n - 26))

/-- The scratch package name `format!("cargo-equip-check-output-{}", suf)`
built from the 16 sampled values. -/
def scratchName (rng : List Nat) : String :=
  "cargo-equip-check-output-" ++ String.mk (rng.map sufChar)

/-- The fallible steps of `cargo_check_using_current_lockfile_and_cache`,
in program order. -/
inductive CheckStep where
  | tempdirCreate
  | locateCargoExe
  | cargoInit
  | readOrigManifest
  | parseOrigManifest
  | readTempManifest
  | parseTempManifest
  | writeTempManifest
  | createBinDir
  | writeBinSource
  | removeMainRs
  | copyLockfile
  | cargoCheck
  | closeTempdir
deriving DecidableEq

/-- Filesystem / subprocess events of one verification call. File contents
and manifest edits are abstracted away; paths, order and fallibility are
modelled. -/
inductive FsEvent where
  | createDir (path : String)
  | runCargoInit (dir edition name cwd : String)
  | readFile (path : String)
  | writeFile (path : String)
  | createSubdir (path : String)
  | removeFile (path : String)
  | copyFile (src dst : String)
  | runCargoCheck (manifestPath targetDir cwd : String)
  | removeDirAll (path : String)
deriving DecidableEq

/-- Environment oracle for one verification call: the system temporary
directory `tempfile` targets, the 16 sampled random values, and the
success of each fallible step. -/
structure CheckEnv where
  sysTempDir : String
  rng : List Nat
  tempdirOk : Bool
  cargoExeOk : Bool
  initOk : Bool
  readOrigOk : Bool
  parseOrigOk : Bool
  readTempOk : Bool
  parseTempOk : Bool
  writeManifestOk : Bool
  createBinDirOk : Bool
  writeCodeOk : Bool
  removeMainOk : Bool
  copyLockOk : Bool
  checkOk : Bool
  closeOk : Bool

/-- The steps between scratch creation and `temp_pkg.close()`, each with
its observable event (if any), its oracle outcome, and its step tag. -/
def checkSteps (env : CheckEnv) (m : Metadata) (package : Package)
    (tempPath name : String) : List (Option FsEvent × Bool × CheckStep) :=
  [ (none, env.cargoExeOk, .locateCargoExe),
    (some (.runCargoInit tempPath package.edition name m.workspace_root),
      env.initOk, .cargoInit),
    (some (.readFile package.manifest_path), env.readOrigOk, .readOrigManifest),
    (none, env.parseOrigOk, .parseOrigManifest),
    (some (.readFile (tempPath ++ "/Cargo.toml")), env.readTempOk,
      .readTempManifest),
    (none, env.parseTempOk, .parseTempManifest),
    (some (.writeFile (tempPath ++ "/Cargo.toml")), env.writeManifestOk,
      .writeTempManifest),
    (some (.createSubdir (tempPath ++ "/src/bin")), env.createBinDirOk,
      .createBinDir),
    (some (.writeFile (tempPath ++ "/src/bin/" ++ name ++ ".rs")),
      env.writeCodeOk, .writeBinSource),
    (some (.removeFile (tempPath ++ "/src/main.rs")), env.removeMainOk,
      .removeMainRs),
    (some (.copyFile (m.workspace_root ++ "/Cargo.lock")
      (tempPath ++ "/Cargo.lock")), env.copyLockOk, .copyLockfile),
    (some (.runCargoCheck (tempPath ++ "/Cargo.toml") m.target_directory
      m.workspace_root), env.checkOk, .cargoCheck) ]

/-- Run steps in order: emit each step's event, stop at the first failure
(the `?` operator) and report the failing step. -/
def runBody : List (Option FsEvent × Bool × CheckStep) →
    List FsEvent × Option CheckStep
  | [] => ([], none)
  | (ev, ok, st) :: rest =>
    if ok then
      let r := runBody rest
      (ev.toList ++ r.1, r.2)
    else (ev.toList, some st)

/-- `cargo_check_using_current_lockfile_and_cache`. The scratch directory
is created by `tempfile::Builder::new().prefix(&name).rand_bytes(0).tempdir()`
at `sysTempDir/name`; an early `?` return triggers the `TempDir` drop
(best-effort `remove_dir_all`, its own failure ignored), while the success
path runs `temp_pkg.close()?`, whose removal failure is propagated. -/
def cargo_check_using_current_lockfile_and_cache (env : CheckEnv)
    (m : Metadata) (package : Package) :
    Except CheckStep Unit × List FsEvent :=
  let name := scratchName env.rng
  let tempPath := env.sysTempDir ++ "/" ++ name
  if env.tempdirOk then
    let body := runBody (checkSteps env m package tempPath name)
    match body.2 with
    | some st =>
      (.error st, .createDir tempPath :: body.1 ++ [.removeDirAll tempPath])
    | none =>
      if env.closeOk then
        (.ok (), .createDir tempPath :: body.1 ++ [.removeDirAll tempPath])
      else
        (.error .closeTempdir,
          .createDir tempPath :: body.1 ++ [.removeDirAll tempPath])
  else (.error .tempdirCreate, [.createDir tempPath])

/-- `path` lies strictly under directory `dir`. -/
def underDir (dir path : String) : Bool :=
  List.isPrefixOf (dir ++ "/").data path.data

/-- The package's library target: its first target of kind `["lib"]`. -/
def libTargetOf (p : Package) : Option Target :=
  p.targets.find? (fun t => t.kind == ["lib"])

/-- The spec invariant "a package exposes at most one library target". -/
def atMostOneLib (p : Package) : Prop :=
  (p.targets.filter (fun t => t.kind == ["lib"])).length ≤ 1

/-- Modelled from the spec (claim C1's words): the first dependency, in
stable edge order, whose library target's declared name with every hyphen
rewritten to underscore equals the candidate identifier. -/
def specFirstDepByRewrittenLibName (m : Metadata) (ecn : String) :
    List String → Option (Target × Package)
  | [] => none
  | d :: rest =>
    match getPackage m d with
    | none => specFirstDepByRewrittenLibName m ecn rest
    | some p =>
      match libTargetOf p with
      | some t =>
        if rustReplaceHyphen t.name == ecn then some (t, p)
        else specFirstDepByRewrittenLibName m ecn rest
      | none => specFirstDepByRewrittenLibName m ecn rest

/-- The amended reading of claim C1: as above, but the library target's
declared name is compared verbatim (no hyphen rewrite). -/
def specFirstDepByLibName (m : Metadata) (ecn : String) :
    List String → Option (Target × Package)
  | [] => none
  | d :: rest =>
    match getPackage m d with
    | none => specFirstDepByLibName m ecn rest
    | some p =>
      match libTargetOf p with
      | some t =>
        if t.name == ecn then some (t, p)
        else specFirstDepByLibName m ecn rest
      | none => specFirstDepByLibName m ecn rest

/-- An edge whose dependency kinds are nonempty and all dev or build
(a dev-only or build-only edge, possibly with several kind records). -/
def devOrBuildOnly (ks : List DepKindInfo) : Prop :=
  ks ≠ [] ∧ ∀ k ∈ ks, k.kind = DependencyKind.dev ∨ k.kind = DependencyKind.build

/-! Concrete package-graph fixtures used to exercise the theorems. -/

/-- A library target whose declared name contains a hyphen. -/
def tLibFooBar : Target := ⟨"foo-bar", ["lib"], "/ws/foo-bar/src/lib.rs"⟩

def pkgFooBar : Package :=
  ⟨"foo-bar 0.1.0", "foo-bar", "/ws/foo-bar/Cargo.toml", "2018",
    [tLibFooBar], [], .null⟩

def pkgP : Package :=
  ⟨"p 0.1.0", "p", "/ws/p/Cargo.toml", "2018",
    [⟨"p", ["bin"], "/ws/p/src/main.rs"⟩], [⟨none⟩], .null⟩

def nodeP : Node :=
  ⟨"p 0.1.0", [⟨"foo_bar", "foo-bar 0.1.0", [⟨.normal⟩]⟩], ["foo-bar 0.1.0"]⟩

/-- P depends on the hyphen-named library `foo-bar` with no rename. -/
def mHyphen : Metadata :=
  ⟨[pkgP, pkgFooBar], ["p 0.1.0"],
    some ⟨[nodeP, ⟨"foo-bar 0.1.0", [], []⟩]⟩, "/ws", "/ws/target"⟩

def tLibQ : Target := ⟨"qlib", ["lib"], "/ws/q/src/lib.rs"⟩

def pkgQ : Package :=
  ⟨"q 0.1.0", "q", "/ws/q/Cargo.toml", "2018", [tLibQ], [], .null⟩

def pkgP2 : Package :=
  ⟨"p2 0.1.0", "p2", "/ws/p2/Cargo.toml", "2018",
    [⟨"p2", ["bin"], "/ws/p2/src/main.rs"⟩], [⟨none⟩], .null⟩

def nodeP2 : Node :=
  ⟨"p2 0.1.0", [⟨"qlib", "q 0.1.0", [⟨.normal⟩]⟩], ["q 0.1.0"]⟩

/-- P2 depends on the hyphen-free library `qlib` with no rename. -/
def mPlain : Metadata :=
  ⟨[pkgP2, pkgQ], ["p2 0.1.0"],
    some ⟨[nodeP2, ⟨"q 0.1.0", [], []⟩]⟩, "/ws", "/ws/target"⟩

/-- A decoy dependency whose library target is literally named `baz`. -/
def pkgDecoy : Package :=
  ⟨"decoy 0.1.0", "decoy", "/ws/decoy/Cargo.toml", "2018",
    [⟨"baz", ["lib"], "/ws/decoy/src/lib.rs"⟩], [], .null⟩

def pkgP3 : Package :=
  ⟨"p3 0.1.0", "p3", "/ws/p3/Cargo.toml", "2018",
    [⟨"p3", ["bin"], "/ws/p3/src/main.rs"⟩], [⟨some "baz"⟩, ⟨none⟩], .null⟩

/-- The decoy comes FIRST in stable edge order, so an implicit scan for
`baz` would hit it before the renamed edge's true target `q`. -/
def nodeP3 : Node :=
  ⟨"p3 0.1.0",
    [⟨"baz", "q 0.1.0", [⟨.normal⟩]⟩, ⟨"decoy", "decoy 0.1.0", [⟨.normal⟩]⟩],
    ["decoy 0.1.0", "q 0.1.0"]⟩

/-- P3 declares explicit rename `baz` for its dependency on `q`, and also
depends on a decoy whose library target is named `baz`. -/
def mRename : Metadata :=
  ⟨[pkgP3, pkgQ, pkgDecoy], ["p3 0.1.0"],
    some ⟨[nodeP3, ⟨"q 0.1.0", [], []⟩, ⟨"decoy 0.1.0", [], []⟩]⟩,
    "/ws", "/ws/target"⟩

def pkgP4 : Package :=
  ⟨"p4 0.1.0", "p4", "/ws/p4/Cargo.toml", "2018",
    [⟨"p4", ["bin"], "/ws/p4/src/main.rs"⟩], [⟨some "baz"⟩], .null⟩

/-- P4 declares rename `baz` but its resolved node carries no edge at all. -/
def mRenameNoEdge : Metadata :=
  ⟨[pkgP4], ["p4 0.1.0"], some ⟨[⟨"p4 0.1.0", [], []⟩]⟩, "/ws", "/ws/target"⟩

def pkgP5 : Package :=
  ⟨"p5 0.1.0", "p5", "/ws/p5/Cargo.toml", "2018",
    [⟨"p5", ["bin"], "/ws/p5/src/main.rs"⟩], [⟨none⟩], .null⟩

def nodeP5 : Node :=
  ⟨"p5 0.1.0", [⟨"qlib", "q 0.1.0", [⟨.dev⟩]⟩], ["q 0.1.0"]⟩

/-- P5's only edge to `q` is dev-only. -/
def mDevOnly : Metadata :=
  ⟨[pkgP5, pkgQ], ["p5 0.1.0"],
    some ⟨[nodeP5, ⟨"q 0.1.0", [], []⟩]⟩, "/ws", "/ws/target"⟩

def tBinA : Target := ⟨"a", ["bin"], "/ws/a/src/main.rs"⟩

def tBinB : Target := ⟨"b", ["bin"], "/ws/b/src/main.rs"⟩

def pkgBinA : Package :=
  ⟨"a 0.1.0", "a", "/ws/a/Cargo.toml", "2018", [tBinA], [], .null⟩

def pkgBinB : Package :=
  ⟨"b 0.1.0", "b", "/ws/b/Cargo.toml", "2018", [tBinB], [], .null⟩

/-- A workspace with two bin targets named `a` and `b`. -/
def mTwoBins : Metadata :=
  ⟨[pkgBinA, pkgBinB], ["a 0.1.0", "b 0.1.0"], none, "/ws", "/ws/target"⟩

/-- A package whose extra-metadata blob is present but malformed (not an
object at all). -/
def pkgBadMeta : Package :=
  ⟨"bad 0.1.0", "bad", "/ws/bad/Cargo.toml", "2018", [], [], .str "bad"⟩

/-- A verification environment in which every step succeeds; the system
temporary directory is `/tmp` and the sampled random values are all 0. -/
def envAllOk : CheckEnv :=
  ⟨"/tmp", List.replicate 16 0, true, true, true, true, true, true, true,
    true, true, true, true, true, true, true⟩

/-- The same environment, but `cargo check` fails and so does removing the
scratch directory afterwards. -/
def envCheckFails : CheckEnv :=
  { envAllOk with checkOk := false, closeOk := false }

def mSandbox : Metadata :=
  ⟨[], [], none, "/home/user/proj", "/home/user/proj/target"⟩

def pSandbox : Package :=
  ⟨"s 0.1.0", "s", "/home/user/proj/Cargo.toml", "2018", [], [], .null⟩

lemma find?_name_lib_of_atMostOneLib (ecn : String) (ts : List Target)
    (h : (ts.filter (fun t => t.kind == ["lib"])).length ≤ 1) :
    ts.find? (fun t => t.name == ecn && t.kind == ["lib"]) =
      match ts.find? (fun t => t.kind == ["lib"]) with
      | some t => if t.name == ecn then some t else none
      | none => none := by
  induction ts with
  | nil => rfl
  | cons t ts ih =>
    cases hk : (t.kind == ["lib"]) with
    | false =>
      have h' : (ts.filter (fun t => t.kind == ["lib"])).length ≤ 1 := by
        simpa [List.filter_cons, hk] using h
      simpa [List.find?_cons, hk] using ih h'
    | true =>
      have hnil : ts.filter (fun t => t.kind == ["lib"]) = [] := by
        simp only [List.filter_cons, hk, if_true, List.length_cons] at h
        exact List.length_eq_zero.mp (Nat.le_zero.mp (Nat.le_of_succ_le_succ h))
      cases hn : (t.name == ecn) with
      | true => simp [List.find?_cons, hk, hn]
      | false =>
        have hnone :
            ts.find? (fun t => t.name == ecn && t.kind == ["lib"]) = none := by
          rw [List.find?_eq_none]
          intro x hx
          have hxk := List.filter_eq_nil_iff.mp hnil x hx
          simp only [Bool.not_eq_true] at hxk
          simp [hxk]
        simp [List.find?_cons, hk, hn, hnone]

lemma findImplicitDepLib_eq_spec (m : Metadata) (ecn : String)
    (deps : List String)
    (hres : ∀ d ∈ deps, (getPackage m d).isSome)
    (hlib : ∀ d ∈ deps, ∀ q, getPackage m d = some q → atMostOneLib q) :
    findImplicitDepLib m ecn deps =
      match specFirstDepByLibName m ecn deps with
      | some (t, q) => .ok t q
      | none => .err (.noSuchExternCrate ecn) := by
  induction deps with
  | nil => simp [findImplicitDepLib, specFirstDepByLibName]
  | cons d rest ih =>
    have hd : (getPackage m d).isSome := hres d (by simp)
    obtain ⟨p, hp⟩ := Option.isSome_iff_exists.mp hd
    have h1 : atMostOneLib p := hlib d (by simp) p hp
    have ih' := ih (fun d' hd' => hres d' (by simp [hd']))
      (fun d' hd' q hq => hlib d' (by simp [hd']) q hq)
    simp only [findImplicitDepLib, specFirstDepByLibName, hp]
    rw [find?_name_lib_of_atMostOneLib ecn p.targets h1]
    unfold libTargetOf
    cases hf : p.targets.find? (fun t => t.kind == ["lib"]) with
    | none => simp [hf, ih']
    | some t =>
      cases hn : (t.name == ecn) with
      | true => simp [hn]
      | false => simp [hn, ih']

/-- **C1 (amended).** When no explicit rename alias of `from` matches the
candidate identifier, `dep_lib_by_extern_crate_name` returns the first
dependency, in stable edge order, whose library target's declared name —
compared verbatim, with no hyphen-to-underscore rewrite — equals the
candidate; if none matches, it fails with the NoSuchExternCrate error
("no external library found"). -/
theorem C1_implicit_match_is_verbatim (m : Metadata) (pid ecn : String)
    (package : Package) (node : Node)
    (hp : getPackage m pid = some package)
    (hn : (nodesOf m).find? (fun n => n.id == pid) = some node)
    (hr : (package.dependencies.filterMap Dependency.rename).any
      (fun rn => rn == ecn) = false)
    (hres : ∀ d ∈ node.dependencies, (getPackage m d).isSome)
    (hlib : ∀ d ∈ node.dependencies, ∀ q, getPackage m d = some q →
      atMostOneLib q) :
    dep_lib_by_extern_crate_name m pid ecn =
      match specFirstDepByLibName m ecn node.dependencies with
      | some (t, q) => DepLibOutcome.ok t q
      | none => DepLibOutcome.err (.noSuchExternCrate ecn) := by
  simp only [dep_lib_by_extern_crate_name, hp, hn, hr, Bool.false_eq_true,
    if_false]
  exact findImplicitDepLib_eq_spec m ecn node.dependencies hres hlib

/-- **C1 counterexample.** In `mHyphen`, P's sole dependency has library
target `foo-bar`, whose hyphen-rewritten name equals the candidate
`foo_bar`, so the claim demands that dependency be returned; the code
compares names verbatim and fails with the NoSuchExternCrate error. -/
theorem C1_counterexample :
    dep_lib_by_extern_crate_name mHyphen "p 0.1.0" "foo_bar" =
      DepLibOutcome.err (.noSuchExternCrate "foo_bar")
    ∧ specFirstDepByRewrittenLibName mHyphen "foo_bar" nodeP.dependencies =
      some (tLibFooBar, pkgFooBar) :=
  ⟨rfl, rfl⟩

/-- Witness for C1: on `mPlain` (hyphen-free library name `qlib`) the
amended theorem applies and resolves to `qlib`'s target. -/
theorem C1_witness :
    dep_lib_by_extern_crate_name mPlain "p2 0.1.0" "qlib" =
      DepLibOutcome.ok tLibQ pkgQ := by
  have h := C1_implicit_match_is_verbatim mPlain "p2 0.1.0" "qlib" pkgP2
    nodeP2 rfl rfl rfl (by decide)
    (by
      intro d hd q hq
      simp only [nodeP2, List.mem_singleton] at hd
      subst hd
      have h2 : some pkgQ = some q := hq
      injection h2 with h3
      subst h3
      exact (by decide :
        (pkgQ.targets.filter (fun t => t.kind == ["lib"])).length ≤ 1))
  exact h

/-- **C3.** When a declared dependency of `from` carries an explicit
rename equal to the candidate, the rename branch is taken regardless of
any implicit name match: the resolved edge whose effective name equals the
candidate determines the target package, whose library target is returned,
and a package without a library target yields the NoLibraryTarget error. -/
theorem C3_rename_precedence (m : Metadata) (pid ecn : String)
    (package : Package) (node : Node) (nd : NodeDep) (package2 : Package)
    (hp : getPackage m pid = some package)
    (hn : (nodesOf m).find? (fun n => n.id == pid) = some node)
    (hr : (package.dependencies.filterMap Dependency.rename).any
      (fun rn => rn == ecn) = true)
    (hd : node.deps.find? (fun nd => nd.name == ecn) = some nd)
    (hq : getPackage m nd.pkg = some package2) :
    dep_lib_by_extern_crate_name m pid ecn =
      match libTargetOf package2 with
      | some lib => DepLibOutcome.ok lib package2
      | none => DepLibOutcome.err (.noLibTarget ecn package2.name) := by
  simp only [dep_lib_by_extern_crate_name, hp, hn, hr, hd, hq, if_true,
    libTargetOf]
  cases package2.targets.find? (fun t => t.kind == ["lib"]) <;> rfl

/-- Witness for C3: in `mRename`, P3 renames its dependency on `q` to
`baz` while a decoy dependency's library target is also named `baz` and
comes first in edge order; resolution still picks `q`'s library. -/
theorem C3_witness :
    dep_lib_by_extern_crate_name mRename "p3 0.1.0" "baz" =
      DepLibOutcome.ok tLibQ pkgQ :=
  C3_rename_precedence mRename "p3 0.1.0" "baz" pkgP3 nodeP3
    ⟨"baz", "q 0.1.0", [⟨.normal⟩]⟩ pkgQ rfl rfl rfl rfl rfl

/-- **C10.** In the explicit-rename branch, when no resolved edge of
`from` carries the candidate as its effective name, the function panics
(the `expect` call); conversely, a non-panicking return in that branch
guarantees such an edge existed. -/
theorem C10_rename_without_edge_panics (m : Metadata) (pid ecn : String)
    (package : Package) (node : Node)
    (hp : getPackage m pid = some package)
    (hn : (nodesOf m).find? (fun n => n.id == pid) = some node)
    (hr : (package.dependencies.filterMap Dependency.rename).any
      (fun rn => rn == ecn) = true) :
    (node.deps.find? (fun nd => nd.name == ecn) = none →
      dep_lib_by_extern_crate_name m pid ecn = DepLibOutcome.panic)
    ∧ (dep_lib_by_extern_crate_name m pid ecn ≠ DepLibOutcome.panic →
        ∃ nd ∈ node.deps, nd.name = ecn) := by
  constructor
  · intro hnone
    simp [dep_lib_by_extern_crate_name, hp, hn, hr, hnone]
  · intro hnp
    cases hfind : node.deps.find? (fun nd => nd.name == ecn) with
    | none =>
      exact absurd
        (by simp [dep_lib_by_extern_crate_name, hp, hn, hr, hfind]) hnp
    | some nd =>
      refine ⟨nd, List.mem_of_find?_eq_some hfind, ?_⟩
      have hpred := List.find?_some hfind
      simpa using hpred

/-- Witness for C10: P4 declares rename `baz` but its resolved node has no
edges, so resolution panics. -/
theorem C10_witness :
    dep_lib_by_extern_crate_name mRenameNoEdge "p4 0.1.0" "baz" =
      DepLibOutcome.panic :=
  (C10_rename_without_edge_panics mRenameNoEdge "p4 0.1.0" "baz" pkgP4
    ⟨"p4 0.1.0", [], []⟩ rfl rfl rfl).1 rfl

/-- **C2.** For packages joined by an eligible resolved edge,
`extern_crate_name` returns the edge's carried name verbatim when it is
among `from`'s explicit rename aliases, and otherwise `to`'s library
target's declared name with every hyphen replaced by an underscore. -/
theorem C2_edge_name (m : Metadata) (fromId toId : String)
    (fromP toP : Package) (r : Resolve) (node : Node) (nd : NodeDep)
    (hfrom : getPackage m fromId = some fromP)
    (hto : getPackage m toId = some toP)
    (hr : m.resolve = some r)
    (hn : r.nodes.find? (fun n => n.id == fromP.id) = some node)
    (hd : node.deps.find?
      (fun nd => nd.pkg == toP.id && eligibleDepKinds nd.dep_kinds) =
        some nd) :
    ((fromP.dependencies.filterMap Dependency.rename).contains nd.name =
        true →
      extern_crate_name m fromId toId = .found nd.name)
    ∧ ((fromP.dependencies.filterMap Dependency.rename).contains nd.name =
        false →
      ∀ t, libTargetOf toP = some t →
        extern_crate_name m fromId toId =
          .found (rustReplaceHyphen t.name)) := by
  constructor
  · intro hc
    simp only [extern_crate_name, hfrom, hto, hr, hn, hd, hc, if_true]
  · intro hc t ht
    unfold libTargetOf at ht
    simp only [extern_crate_name, hfrom, hto, hr, hn, hd, hc,
      Bool.false_eq_true, if_false, ht]

/-- Witness for C2: in `mHyphen` there is no rename and `foo-bar`'s
library target is hyphen-named, so the edge name is `foo_bar`. -/
theorem C2_witness :
    extern_crate_name mHyphen "p 0.1.0" "foo-bar 0.1.0" =
      .found "foo_bar" :=
  (C2_edge_name mHyphen "p 0.1.0" "foo-bar 0.1.0" pkgP pkgFooBar
    ⟨[nodeP, ⟨"foo-bar 0.1.0", [], []⟩]⟩ nodeP
    ⟨"foo_bar", "foo-bar 0.1.0", [⟨.normal⟩]⟩
    rfl rfl rfl rfl rfl).2 rfl tLibFooBar rfl

lemma eligible_false_of_devOrBuildOnly (ks : List DepKindInfo)
    (h : devOrBuildOnly ks) : eligibleDepKinds ks = false := by
  obtain ⟨hne, hall⟩ := h
  cases ks with
  | nil => exact absurd rfl hne
  | cons k rest =>
    cases rest with
    | cons k2 rest2 =>
      obtain ⟨kk⟩ := k
      cases kk <;> rfl
    | nil =>
      obtain ⟨kk⟩ := k
      rcases hall ⟨kk⟩ (by simp) with hk | hk <;>
        (simp only at hk; subst hk; rfl)

/-- **C4.** `extern_crate_name` considers only resolved edges whose
dependency-kind set is empty or the sole "normal" kind: when every edge
from `from` to `to` is dev-only or build-only the result is absent (not an
error), and any successful result certifies an eligible edge existed. -/
theorem C4_only_normal_edges (m : Metadata) (fromId toId : String)
    (fromP toP : Package) (r : Resolve) (node : Node)
    (hfrom : getPackage m fromId = some fromP)
    (hto : getPackage m toId = some toP)
    (hr : m.resolve = some r)
    (hn : r.nodes.find? (fun n => n.id == fromP.id) = some node) :
    ((∀ nd ∈ node.deps, nd.pkg = toP.id → devOrBuildOnly nd.dep_kinds) →
      extern_crate_name m fromId toId = .absent)
    ∧ (∀ s, extern_crate_name m fromId toId = .found s →
        ∃ nd ∈ node.deps, nd.pkg = toP.id ∧
          eligibleDepKinds nd.dep_kinds = true) := by
  constructor
  · intro hdev
    have hnone : node.deps.find?
        (fun nd => nd.pkg == toP.id && eligibleDepKinds nd.dep_kinds) =
          none := by
      rw [List.find?_eq_none]
      intro nd hnd
      by_cases hpkg : nd.pkg = toP.id
      · have he := eligible_false_of_devOrBuildOnly nd.dep_kinds
          (hdev nd hnd hpkg)
        simp [he]
      · simp [hpkg]
    simp only [extern_crate_name, hfrom, hto, hr, hn, hnone]
  · intro s hs
    cases hfind : node.deps.find?
        (fun nd => nd.pkg == toP.id && eligibleDepKinds nd.dep_kinds) with
    | none =>
      rw [show extern_crate_name m fromId toId = .absent by
        simp only [extern_crate_name, hfrom, hto, hr, hn, hfind]] at hs
      exact absurd hs (by simp)
    | some nd0 =>
      have hmem := List.mem_of_find?_eq_some hfind
      have hpred := List.find?_some hfind
      rw [Bool.and_eq_true] at hpred
      exact ⟨nd0, hmem, by simpa using hpred.1, hpred.2⟩

/-- Witness for C4: P5's only edge to `q` is dev-only, so the name lookup
yields an absent result. -/
theorem C4_witness :
    extern_crate_name mDevOnly "p5 0.1.0" "q 0.1.0" = .absent := by
  apply (C4_only_normal_edges mDevOnly "p5 0.1.0" "q 0.1.0" pkgP5 pkgQ
    ⟨[nodeP5, ⟨"q 0.1.0", [], []⟩]⟩ nodeP5 rfl rfl rfl rfl).1
  intro nd hnd hpkg
  simp only [nodeP5, List.mem_singleton] at hnd
  subst hnd
  exact ⟨by decide, by decide⟩

/-- **C7.** `exactly_one_bin_target` over the workspace's bin targets
fails NotFound on zero candidates, returns the unique pair on one, and
fails Ambiguous with the ordered candidate names on two or more. -/
theorem C7_exactly_one_bin_target (m : Metadata) :
    (bin_targets m = [] →
      exactly_one_bin_target m = .error .notFound)
    ∧ (∀ b, bin_targets m = [b] → exactly_one_bin_target m = .ok b)
    ∧ (∀ b1 b2 rest, bin_targets m = b1 :: b2 :: rest →
        exactly_one_bin_target m =
          .error (.ambiguous
            ((b1 :: b2 :: rest).map (fun tp => tp.1.name)))) := by
  refine ⟨fun h => ?_, fun b h => ?_, fun b1 b2 rest h => ?_⟩ <;>
    simp only [exactly_one_bin_target, h]

/-- Witness for C7: a workspace with two bin targets `a`, `b` yields the
Ambiguous error listing `a, b`. -/
theorem C7_witness :
    exactly_one_bin_target mTwoBins =
      .error (.ambiguous ["a", "b"]) :=
  (C7_exactly_one_bin_target mTwoBins).2.2 (tBinA, pkgBinA)
    (tBinB, pkgBinB) [] rfl

/-- **C8.** `parse_metadata` substitutes the default configuration (empty
module-dependency map) with a non-fatal warning when the extra-metadata
blob is null, and fails fatally with a message naming the package's
manifest path when the blob is present but malformed. -/
theorem C8_parse_metadata (p : Package) :
    (p.metadata = Json.null →
      parse_metadata p = .ok (PackageMetadataCargoEquip.mk [],
        [missingMetadataWarning p.manifest_path]))
    ∧ (∀ e, p.metadata ≠ Json.null →
        deserializePackageMetadata p.metadata = .error e →
        parse_metadata p =
          .error (parseMetadataErrorMsg p.manifest_path)) := by
  constructor
  · intro h
    simp [parse_metadata, h]
  · intro e hne hde
    cases hm : p.metadata
    case null => exact absurd hm hne
    all_goals (rw [hm] at hde; simp [parse_metadata, hm, hde])

/-- Witness for C8: `q`'s metadata is null and parses to the default with
a warning; `bad`'s metadata is a bare string and fails fatally with the
manifest path in the message. -/
theorem C8_witness :
    parse_metadata pkgQ = .ok (PackageMetadataCargoEquip.mk [],
      [missingMetadataWarning "/ws/q/Cargo.toml"])
    ∧ parse_metadata pkgBadMeta =
      .error (parseMetadataErrorMsg "/ws/bad/Cargo.toml") := by
  constructor
  · exact (C8_parse_metadata pkgQ).1 rfl
  · exact (C8_parse_metadata pkgBadMeta).2 "invalid type: expected a map"
      (fun h => Json.noConfusion h) rfl

lemma takeWhile_append_stop (p : Char → Bool) (a : List Char) (c : Char)
    (rest : List Char) (ha : ∀ x ∈ a, p x) (hc : p c = false) :
    (a ++ c :: rest).takeWhile p = a ∧
      (a ++ c :: rest).dropWhile p = c :: rest := by
  induction a with
  | nil => simp [List.takeWhile_cons, List.dropWhile_cons, hc]
  | cons x xs ih =>
    have hx : p x = true := ha x (by simp)
    have ih' := ih (fun y hy => ha y (by simp [hy]))
    simp [List.takeWhile_cons, List.dropWhile_cons, hx, ih'.1, ih'.2]

lemma takeWhile_all_of_ident (p : Char → Bool) (a : List Char)
    (ha : ∀ x ∈ a, p x) :
    a.takeWhile p = a ∧ a.dropWhile p = [] := by
  induction a with
  | nil => simp
  | cons x xs ih =>
    have hx : p x = true := ha x (by simp)
    have ih' := ih (fun y hy => ha y (by simp [hy]))
    simp [List.takeWhile_cons, List.dropWhile_cons, hx, ih'.1, ih'.2]

lemma takeIdent_of_append (a : List Char) (c : Char) (rest : List Char)
    (hne : a ≠ []) (ha : ∀ x ∈ a, isIdentChar x)
    (hc : isIdentChar c = false) :
    takeIdent (a ++ c :: rest) = some (a, c :: rest) := by
  unfold takeIdent
  rw [(takeWhile_append_stop isIdentChar a c rest ha hc).1,
    (takeWhile_append_stop isIdentChar a c rest ha hc).2]
  simp [hne]

lemma takeIdent_of_all (a : List Char) (hne : a ≠ [])
    (ha : ∀ x ∈ a, isIdentChar x) :
    takeIdent a = some (a, []) := by
  unfold takeIdent
  rw [(takeWhile_all_of_ident isIdentChar a ha).1,
    (takeWhile_all_of_ident isIdentChar a ha).2]
  simp [hne]

lemma takeIdent_sound (cs g rest : List Char)
    (h : takeIdent cs = some (g, rest)) :
    g ≠ [] ∧ (∀ x ∈ g, isIdentChar x) ∧ cs = g ++ rest := by
  unfold takeIdent at h
  by_cases he : (cs.takeWhile isIdentChar).isEmpty = true
  · simp [he] at h
  · rw [if_neg he] at h
    injection h with hpair
    injection hpair with h1 h2
    subst h1
    subst h2
    refine ⟨?_, ?_, ?_⟩
    · intro hg
      exact he (List.isEmpty_iff.mpr hg)
    · intro x hx
      exact List.mem_takeWhile_imp hx
    · exact (List.takeWhile_append_dropWhile _ _).symm

lemma expectColons_sound (cs rest : List Char)
    (h : expectColons cs = some rest) : cs = ':' :: ':' :: rest := by
  cases cs with
  | nil => exact absurd h (by simp [expectColons])
  | cons c1 cs1 =>
    cases cs1 with
    | nil => exact absurd h (by simp [expectColons])
    | cons c2 cs2 =>
      unfold expectColons at h
      by_cases h1 : c1 = ':'
      · by_cases h2 : c2 = ':'
        · simp only [h1, h2, if_true, Option.some.injEq] at h
          rw [h1, h2, h]
        · simp [h1, h2] at h
      · simp [h1] at h

lemma matchPMP_complete (a b : List Char)
    (hane : a ≠ []) (ha : ∀ x ∈ a, isIdentChar x)
    (hbne : b ≠ []) (hb : ∀ x ∈ b, isIdentChar x) :
    matchPseudoModulePath (':' :: ':' :: (a ++ ':' :: ':' :: b)) =
      some (a, b) := by
  have h1 : expectColons (':' :: ':' :: (a ++ ':' :: ':' :: b)) =
      some (a ++ ':' :: ':' :: b) := by simp [expectColons]
  have h2 : takeIdent (a ++ ':' :: ':' :: b) = some (a, ':' :: ':' :: b) :=
    takeIdent_of_append a ':' (':' :: b) hane ha (by decide)
  have h3 : expectColons (':' :: ':' :: b) = some b := by simp [expectColons]
  have h4 : takeIdent b = some (b, []) := takeIdent_of_all b hbne hb
  simp [matchPseudoModulePath, h1, h2, h3, h4]

lemma matchPMP_sound (cs g1 g2 : List Char)
    (h : matchPseudoModulePath cs = some (g1, g2)) :
    g1 ≠ [] ∧ (∀ x ∈ g1, isIdentChar x) ∧
      g2 ≠ [] ∧ (∀ x ∈ g2, isIdentChar x) ∧
      cs = ':' :: ':' :: (g1 ++ ':' :: ':' :: g2) := by
  cases he1 : expectColons cs with
  | none =>
    simp only [matchPseudoModulePath, he1] at h
    exact Option.noConfusion h
  | some rest =>
    simp only [matchPseudoModulePath, he1] at h
    cases ht1 : takeIdent rest with
    | none =>
      simp only [ht1] at h
      exact Option.noConfusion h
    | some pr1 =>
      obtain ⟨ga, rest1⟩ := pr1
      simp only [ht1] at h
      cases he2 : expectColons rest1 with
      | none =>
        simp only [he2] at h
        exact Option.noConfusion h
      | some rest2 =>
        simp only [he2] at h
        cases ht2 : takeIdent rest2 with
        | none =>
          simp only [ht2] at h
          exact Option.noConfusion h
        | some pr2 =>
          obtain ⟨gb, rest3⟩ := pr2
          simp only [ht2] at h
          by_cases hr3 : rest3.isEmpty = true
          · simp only [hr3, if_true, Option.some.injEq, Prod.mk.injEq] at h
            obtain ⟨hga, hgb⟩ := h
            have hr3' : rest3 = [] := List.isEmpty_iff.mp hr3
            subst hr3'
            obtain ⟨hne1, hid1, hrest⟩ := takeIdent_sound rest ga rest1 ht1
            obtain ⟨hne2, hid2, hrest2⟩ := takeIdent_sound rest2 gb [] ht2
            rw [List.append_nil] at hrest2
            have hcs := expectColons_sound cs rest he1
            have hr1eq := expectColons_sound rest1 rest2 he2
            rw [hrest, hr1eq, hrest2] at hcs
            refine ⟨hga ▸ hne1, hga ▸ hid1, hgb ▸ hne2, hgb ▸ hid2, ?_⟩
            rw [← hga, ← hgb]
            exact hcs
          · simp [hr3] at h

/-- **C9.** Every `::A::B` with `A`, `B` nonempty runs of
`[a-zA-Z0-9_]` parses to `{extern_crate_name = A, module_name = B}` and
re-serializes to the quoted `"::A::B"`; conversely every successful parse
comes from exactly such a two-segment input (so any other segment count or
a disallowed character fails). -/
theorem C9_pseudo_module_path_roundtrip (A B : String)
    (hA : A.data ≠ []) (hA2 : ∀ c ∈ A.data, isIdentChar c)
    (hB : B.data ≠ []) (hB2 : ∀ c ∈ B.data, isIdentChar c) :
    PseudoModulePath.fromStr ("::" ++ A ++ "::" ++ B) =
      .ok ⟨A, B⟩
    ∧ PseudoModulePath.display ⟨A, B⟩ = "\"::" ++ A ++ "::" ++ B ++ "\""
    ∧ ∀ (s : String) (q : PseudoModulePath),
        PseudoModulePath.fromStr s = .ok q →
          q.extern_crate_name.data ≠ [] ∧
          (∀ c ∈ q.extern_crate_name.data, isIdentChar c) ∧
          q.module_name.data ≠ [] ∧
          (∀ c ∈ q.module_name.data, isIdentChar c) ∧
          s = "::" ++ q.extern_crate_name ++ "::" ++ q.module_name := by
  refine ⟨?_, rfl, ?_⟩
  · have hdata : ("::" ++ A ++ "::" ++ B).data =
        ':' :: ':' :: (A.data ++ ':' :: ':' :: B.data) := by
      simp [String.data_append]
    unfold PseudoModulePath.fromStr
    rw [hdata, matchPMP_complete A.data B.data hA hA2 hB hB2]
  · intro s q hq
    unfold PseudoModulePath.fromStr at hq
    cases hm : matchPseudoModulePath s.data with
    | none => rw [hm] at hq; exact absurd hq (by simp)
    | some pr =>
      obtain ⟨g1, g2⟩ := pr
      rw [hm] at hq
      simp only [Except.ok.injEq] at hq
      subst hq
      obtain ⟨hne1, hid1, hne2, hid2, hcs⟩ := matchPMP_sound s.data g1 g2 hm
      refine ⟨hne1, hid1, hne2, hid2, ?_⟩
      apply String.ext
      rw [hcs]
      simp [String.data_append]

/-- Witness for C9: `::ab::cd` parses to the pair `(ab, cd)`. -/
theorem C9_witness :
    PseudoModulePath.fromStr "::ab::cd" = .ok ⟨"ab", "cd"⟩ :=
  (C9_pseudo_module_path_roundtrip "ab" "cd" (by decide) (by decide)
    (by decide) (by decide)).1

lemma cargo_check_trace_shape (env : CheckEnv) (m : Metadata) (p : Package)
    (h : env.tempdirOk = true) :
    (cargo_check_using_current_lockfile_and_cache env m p).2 =
      FsEvent.createDir (env.sysTempDir ++ "/" ++ scratchName env.rng) ::
        (runBody (checkSteps env m p
          (env.sysTempDir ++ "/" ++ scratchName env.rng)
          (scratchName env.rng))).1 ++
        [FsEvent.removeDirAll
          (env.sysTempDir ++ "/" ++ scratchName env.rng)] := by
  simp only [cargo_check_using_current_lockfile_and_cache, h, if_true]
  cases (runBody (checkSteps env m p
      (env.sysTempDir ++ "/" ++ scratchName env.rng)
      (scratchName env.rng))).2 with
  | some st => rfl
  | none => cases env.closeOk <;> rfl

lemma cargo_check_error_of_runBody (env : CheckEnv) (m : Metadata)
    (p : Package) (st : CheckStep) (h : env.tempdirOk = true)
    (hb : (runBody (checkSteps env m p
      (env.sysTempDir ++ "/" ++ scratchName env.rng)
      (scratchName env.rng))).2 = some st) :
    (cargo_check_using_current_lockfile_and_cache env m p).1 =
      .error st := by
  simp only [cargo_check_using_current_lockfile_and_cache, h, if_true, hb]

lemma cargo_check_error_inv (env : CheckEnv) (m : Metadata) (p : Package)
    (st : CheckStep) (h : env.tempdirOk = true)
    (hst : (cargo_check_using_current_lockfile_and_cache env m p).1 =
      .error st)
    (hne : st ≠ CheckStep.closeTempdir) :
    (runBody (checkSteps env m p
      (env.sysTempDir ++ "/" ++ scratchName env.rng)
      (scratchName env.rng))).2 = some st := by
  simp only [cargo_check_using_current_lockfile_and_cache, h, if_true]
    at hst
  cases hb : (runBody (checkSteps env m p
      (env.sysTempDir ++ "/" ++ scratchName env.rng)
      (scratchName env.rng))).2 with
  | some st0 =>
    rw [hb] at hst
    injection hst with he
    rw [he]
  | none =>
    rw [hb] at hst
    cases hc : env.closeOk with
    | true =>
      rw [hc] at hst
      exact absurd hst (by simp)
    | false =>
      rw [hc] at hst
      injection hst with he
      exact absurd he.symm hne

/-- **C5 (amended).** The ephemeral scratch package directory is created,
as the call's first filesystem action, at a fresh path directly under the
system temporary directory targeted by `tempfile` — not under the real
workspace root. -/
theorem C5_scratch_dir_in_system_tempdir (env : CheckEnv) (m : Metadata)
    (p : Package) :
    (cargo_check_using_current_lockfile_and_cache env m p).2.head? =
      some (.createDir (env.sysTempDir ++ "/" ++ scratchName env.rng))
    ∧ underDir env.sysTempDir
        (env.sysTempDir ++ "/" ++ scratchName env.rng) = true := by
  constructor
  · simp only [cargo_check_using_current_lockfile_and_cache]
    cases env.tempdirOk
    · simp
    · simp only [if_true]
      cases (runBody (checkSteps env m p
          (env.sysTempDir ++ "/" ++ scratchName env.rng)
          (scratchName env.rng))).2 with
      | some st => rfl
      | none => cases env.closeOk <;> rfl
  · unfold underDir
    rw [String.data_append (env.sysTempDir ++ "/") (scratchName env.rng)]
    exact List.isPrefixOf_iff_prefix.mpr (List.prefix_append _ _)

/-- **C5 counterexample.** With the system temporary directory `/tmp` and
workspace root `/home/user/proj`, the scratch directory is created at
`/tmp/cargo-equip-check-output-…`, which is not under the workspace root
as the claim states. -/
theorem C5_counterexample :
    (cargo_check_using_current_lockfile_and_cache envAllOk mSandbox
      pSandbox).2.head? =
      some (.createDir "/tmp/cargo-equip-check-output-aaaaaaaaaaaaaaaa")
    ∧ underDir mSandbox.workspace_root
      "/tmp/cargo-equip-check-output-aaaaaaaaaaaaaaaa" = false :=
  ⟨rfl, by decide⟩

/-- **C6.** The scratch directory removal is the call's final filesystem
action on every exit path once the directory was created, and on an error
path the reported error is the failing step's own, unaffected by whether
the best-effort cleanup succeeds. -/
theorem C6_cleanup_on_every_path (env : CheckEnv) (m : Metadata)
    (p : Package) (b : Bool) (h : env.tempdirOk = true) :
    (cargo_check_using_current_lockfile_and_cache env m p).2.getLast? =
      some (.removeDirAll (env.sysTempDir ++ "/" ++ scratchName env.rng))
    ∧ ∀ st, (cargo_check_using_current_lockfile_and_cache env m p).1 =
        .error st → st ≠ CheckStep.closeTempdir →
        (cargo_check_using_current_lockfile_and_cache
          { env with closeOk := b } m p).1 = .error st := by
  constructor
  · rw [cargo_check_trace_shape env m p h, List.getLast?_concat]
  · intro st hst hne
    have hb := cargo_check_error_inv env m p st h hst hne
    exact cargo_check_error_of_runBody { env with closeOk := b } m p st h hb

/-- Witness for C6: with `cargo check` failing and cleanup also failing,
the final event is still the removal of the scratch directory, and making
cleanup succeed instead does not change the reported error. -/
theorem C6_witness :
    (cargo_check_using_current_lockfile_and_cache envCheckFails mSandbox
      pSandbox).2.getLast? =
      some (.removeDirAll "/tmp/cargo-equip-check-output-aaaaaaaaaaaaaaaa")
    ∧ (cargo_check_using_current_lockfile_and_cache
        { envCheckFails with closeOk := true } mSandbox pSandbox).1 =
      .error CheckStep.cargoCheck := by
  have h := C6_cleanup_on_every_path envCheckFails mSandbox pSandbox true rfl
  exact ⟨h.1, h.2 CheckStep.cargoCheck rfl (by decide)⟩

end CargoEquip
